import Mathlib

/-!
Verification of the MP3 concatenation engine of `n8n-audio-merge`
(`src/index.ts`, Cloudflare Worker variant: `findMP3FrameSync`,
`getMP3FrameSize`, `concatenateMP3Files`, `normalizeVolume`,
`base64ToUint8Array`, `uint8ArrayToBase64`, and the `fetch` handler).

Buffers (`Uint8Array`) are modelled as `List Nat` of byte values;
JavaScript numbers occurring here are non-negative integers for which
`Math.floor` of the float expressions used by the source agrees with
`Nat` division (checked case by case in the comments below).
-/

set_option maxRecDepth 100000

namespace AudioMerge

/-- Predicate of the candidate test in the `for` loop of `findMP3FrameSync`
(`src/index.ts` lines 43-54): the two sync checks and the "basic validation"
of the fields the code extracts from `(data[i+1] << 8) | data[i+2]`. -/
def syncCandidate (data : List Nat) (i : Nat) : Bool :=
  data.getD i 0 == 0xFF && (data.getD (i + 1) 0 &&& 0xE0) == 0xE0 &&
    (let frameHeader := (data.getD (i + 1) 0 <<< 8) ||| data.getD (i + 2) 0
     let version := (frameHeader >>> 19) &&& 0x3
     let layer := (frameHeader >>> 17) &&& 0x3
     let bitrateIndex := (frameHeader >>> 12) &&& 0xF
     let sampleRateIndex := (frameHeader >>> 10) &&& 0x3
     version != 1 && layer != 1 && bitrateIndex != 0 && sampleRateIndex != 3)

/-- `findMP3FrameSync(data, startIndex)` (`src/index.ts` lines 41-58):
scan `i` from `startIndex` while `i < data.length - 3`, returning the first
accepted candidate offset; `none` models the `-1` return. -/
def findMP3FrameSync (data : List Nat) (startIndex : Nat) : Option Nat :=
  (List.range' startIndex (data.length - 3 - startIndex)).find? (syncCandidate data)

/-- The MPEG-1 Layer 3 bitrate table of `getMP3FrameSize` (`src/index.ts` line 72). -/
def bitrates : List Nat := [0, 32, 40, 48, 56, 64, 80, 96, 112, 128, 160, 192, 224, 256, 288, 320]

/-- The sample-rate table of `getMP3FrameSize` (`src/index.ts` line 73). -/
def sampleRates : List Nat := [44100, 48000, 32000]

/-- `getMP3FrameSize(data, frameStart)` (`src/index.ts` lines 61-82).
`bitrates[bitrateIndex] || 128` is falsy exactly when the looked-up entry is `0`
(the index is masked to `0..15`, so it is never out of range), and
`sampleRates[sampleRateIndex] || 44100` is falsy when the entry is `0` or the
index is `3` (out of range, `undefined`); both cases are the `= 0` test on
`getD _ 0`. `Math.floor((bitrate * 1000 * 144) / (sampleRate * 4))` is exact
`Nat` division (the numerator is at most 46 080 000, well inside exact
double range, and quotients are far from integer boundaries). -/
def getMP3FrameSize (data : List Nat) (frameStart : Nat) : Nat :=
  if data.length ≤ frameStart + 4 then 0
  else
    let frameHeader := (data.getD (frameStart + 1) 0 <<< 8) ||| data.getD (frameStart + 2) 0
    let bitrateIndex := (frameHeader >>> 12) &&& 0xF
    let sampleRateIndex := (frameHeader >>> 10) &&& 0x3
    let padding := (frameHeader >>> 9) &&& 0x1
    let bitrate := if bitrates.getD bitrateIndex 0 = 0 then 128 else bitrates.getD bitrateIndex 0
    let sampleRate := if sampleRates.getD sampleRateIndex 0 = 0 then 44100 else sampleRates.getD sampleRateIndex 0
    min (bitrate * 1000 * 144 / (sampleRate * 4) + padding) (data.length - frameStart)

/-- Modelled from the claim C1 wording (not from the source): the standard
frame-length formula `floor(bitrate_kbps * 1000 * 144 / sampleRate) + padding`
for an MPEG-1 header, with the claim's MPEG-1 bitrate table and the
44100/48000/32000 sample-rate table, the fields decoded from their actual bit
positions in header bytes `h1 h2` (second and third byte of the 4-byte header:
bitrate index = bits 7-4 of `h2`, sample-rate index = bits 3-2 of `h2`,
padding = bit 1 of `h2`). -/
def specFrameLength (h2 : Nat) : Nat :=
  let bitrateKbps := [0, 32, 40, 48, 56, 64, 80, 96, 112, 128, 160, 192, 224, 256, 288, 320].getD ((h2 >>> 4) &&& 0xF) 0
  let sampleRate := [44100, 48000, 32000].getD ((h2 >>> 2) &&& 0x3) 0
  bitrateKbps * 1000 * 144 / sampleRate + ((h2 >>> 1) &&& 0x1)

/-- Modelled from the claim C7 wording (not from the source): a sync candidate's
header is valid unless a degenerate field value is present — version id `01`
(bits 4-3 of the second header byte), layer id `00` (bits 2-1 of the second
header byte), bitrate index `0000`/`1111` (bits 7-4 of the third header byte),
or sample-rate index `11` (bits 3-2 of the third header byte). -/
def specHeaderValid (h1 h2 : Nat) : Bool :=
  ((h1 >>> 3) &&& 0x3) != 1 && ((h1 >>> 1) &&& 0x3) != 0 &&
    ((h2 >>> 4) &&& 0xF) != 0 && ((h2 >>> 4) &&& 0xF) != 15 && ((h2 >>> 2) &&& 0x3) != 3

/-- A genuine MPEG-1 Layer III header (`FF FB 90 00`: version `11` = MPEG-1,
layer `01` = Layer III, bitrate index `9` = 128 kbps, sample-rate index `0` =
44100 Hz, padding `0`) followed by 496 zero bytes. -/
def c1buf : List Nat := 0xFF :: 0xFB :: 0x90 :: 0x00 :: List.replicate 496 0

/-- A buffer whose first two bytes `FF E0` carry the two-byte sync pattern but
whose header has layer id `00` (reserved) and bitrate index `0000` (degenerate). -/
def c7buf : List Nat := [0xFF, 0xE0, 0x00, 0x00, 0x00]

/-- The ID3v2 synch-safe size `(b6 << 21) | (b7 << 14) | (b8 << 7) | b9`
computed from bytes 6-9 of the buffer (`src/index.ts` line 116). -/
def id3Size (buffer : List Nat) : Nat :=
  (buffer.getD 6 0 <<< 21) ||| (buffer.getD 7 0 <<< 14) ||| (buffer.getD 8 0 <<< 7) ||| buffer.getD 9 0

/-- The "Skip ID3 tags if present" adjustment of `concatenateMP3Files`
(`src/index.ts` lines 112-120): the found sync offset `frameStart` is replaced
by `10 + id3Size` only when `frameStart > 10` and the first three bytes are
`I` `D` `3` (`0x49 0x44 0x33`). -/
def id3AdjustedStart (buffer : List Nat) (frameStart : Nat) : Nat :=
  if 10 < frameStart ∧ buffer.getD 0 0 = 0x49 ∧ buffer.getD 1 0 = 0x44 ∧ buffer.getD 2 0 = 0x33 then
    10 + id3Size buffer
  else frameStart

/-- The offset at which frame extraction begins for a segment, when a sync is
found at all: the first accepted sync offset, ID3-adjusted
(`src/index.ts` lines 105-120). -/
def scanStart (buffer : List Nat) : Option Nat :=
  (findMP3FrameSync buffer 0).map (id3AdjustedStart buffer)

/-- The frame-extraction `while` loop of `concatenateMP3Files`
(`src/index.ts` lines 123-134), with explicit fuel: while
`frameStart < buffer.length`, compute the frame size, stop on size 0, push
`buffer.slice(frameStart, frameStart + frameSize)`, move to the next accepted
sync, stop when there is none. -/
def extractFramesAux (buffer : List Nat) : Nat → Nat → List (List Nat)
  | 0, _ => []
  | fuel + 1, frameStart =>
    if frameStart < buffer.length then
      let frameSize := getMP3FrameSize buffer frameStart
      if frameSize = 0 then []
      else
        let frame := (buffer.drop frameStart).take frameSize
        match findMP3FrameSync buffer (frameStart + frameSize) with
        | none => [frame]
        | some next => frame :: extractFramesAux buffer fuel next
    else []

/-- Frame extraction with enough fuel: each iteration strictly increases
`frameStart` (the frame size is at least 1 and the next sync search starts at
`frameStart + frameSize`), and every iterating `frameStart` is below
`buffer.length`, so `buffer.length + 1` steps always suffice. -/
def extractFrames (buffer : List Nat) (frameStart : Nat) : List (List Nat) :=
  extractFramesAux buffer (buffer.length + 1) frameStart

/-- Per-segment scan (`src/index.ts` lines 104-134): `none` when no sync word
is found (the raw-data fallback of lines 106-110 fires), otherwise the list of
extracted frames starting from the ID3-adjusted first sync offset. -/
def segScan (buffer : List Nat) : Option (List (List Nat)) :=
  (scanStart buffer).map (extractFrames buffer)

/-- `crossfadeFrames = Math.floor(0.1 * 44100 / 1152)` (`src/index.ts` line 98);
in doubles `0.1 * 44100` evaluates to exactly `4410`, so the value is `3`. -/
def crossfadeFrames : Nat := 4410 / 1152

/-- One iteration of the segment loop of `concatenateMP3Files`
(`src/index.ts` lines 100-150) acting on the accumulated `concatenatedFrames`
entry list: raw fallback appends the whole buffer as one entry; otherwise, when
`i > 0` and the segment has more than `crossfadeFrames` frames,
`concatenatedFrames.splice(-min(crossfadeFrames, concatenatedFrames.length))`
removes that many entries from the **global** accumulated tail and
`segmentFrames.splice(0, crossfadeFrames)` drops the segment's first
`crossfadeFrames` frames; then the segment's surviving frames are appended. -/
def stepSegment (entries : List (List Nat)) (i : Nat) (buffer : List Nat) : List (List Nat) :=
  match segScan buffer with
  | none => entries ++ [buffer]
  | some segmentFrames =>
    if 0 < i ∧ crossfadeFrames < segmentFrames.length then
      let framesToRemove := min crossfadeFrames entries.length
      entries.take (entries.length - framesToRemove) ++ segmentFrames.drop crossfadeFrames
    else entries ++ segmentFrames

/-- The indexed `for` loop of `concatenateMP3Files` over the segment buffers. -/
def concatLoop : List (List Nat) → Nat → List (List Nat) → List (List Nat)
  | entries, _, [] => entries
  | entries, i, buffer :: rest => concatLoop (stepSegment entries i buffer) (i + 1) rest

/-- `concatenateMP3Files(audioBuffers)` (`src/index.ts` lines 85-164): throws
(`none`) on an empty collection, returns the single buffer unchanged when there
is exactly one, and otherwise runs the segment loop and flattens the surviving
entries into one output buffer. -/
def concatenateMP3Files (audioBuffers : List (List Nat)) : Option (List Nat) :=
  match audioBuffers with
  | [] => none
  | [buffer] => some buffer
  | _ => some (List.flatten (concatLoop [] 0 audioBuffers))

/-- `normalizeVolume(audioBuffer)` (`src/index.ts` lines 167-177): every byte
is mapped to `Math.min(255, Math.floor(b * 0.8))`; for byte values `b ≤ 255`
the double computation `Math.floor(b * 0.8)` equals `4 * b / 5` in `Nat`
(the accumulated float error is below half an ulp of every relevant value). -/
def normalizeVolume (audioBuffer : List Nat) : List Nat :=
  audioBuffer.map (fun b => min 255 (b * 4 / 5))

/-- The merge portion of the `fetch` handler (`src/index.ts` lines 254-258):
concatenate, then apply volume normalization to the merged buffer. -/
def fetchMerge (audioBuffers : List (List Nat)) : Option (List Nat) :=
  (concatenateMP3Files audioBuffers).map normalizeVolume

/-- The plan entries a buffer contributes when it is the first segment of the
loop (no trimming can fire at index 0): its frames, or the whole raw buffer. -/
def planOf (buffer : List Nat) : List (List Nat) :=
  stepSegment [] 0 buffer

/-- One synthetic 216-byte frame: header `FF E4 00 00` (accepted by
`findMP3FrameSync`; `getMP3FrameSize` computes size 216 for it), then zeros. -/
def frameUnit : List Nat := 0xFF :: 0xE4 :: List.replicate 214 0

/-- A segment scanning to exactly 2 frames (fewer than `crossfadeFrames + 1`). -/
def c3a : List Nat := frameUnit ++ frameUnit

/-- A segment scanning to exactly 4 frames (more than `crossfadeFrames`). -/
def c3b : List Nat := frameUnit ++ frameUnit ++ frameUnit ++ frameUnit

/-- A segment scanning to exactly 5 frames. -/
def c3big : List Nat := frameUnit ++ frameUnit ++ frameUnit ++ frameUnit ++ frameUnit

/-- A single-segment input: a 10-byte ID3v2 header (`ID3`, version 2.3, flags 0,
synch-safe size 0) followed by one valid frame. -/
def c4buf : List Nat := [0x49, 0x44, 0x33, 0x03, 0x00, 0x00, 0x00, 0x00, 0x00, 0x00] ++ frameUnit

/-- A buffer starting with the `ID3` marker and a synch-safe size field
`[0,0,2,1]` (= 257), but carrying an accepted sync pattern already at
offset 3 (inside the tag header bytes). -/
def c6buf : List Nat := [0x49, 0x44, 0x33, 0xFF, 0xE4, 0x00, 0x00, 0x00, 0x02, 0x01, 0x00, 0x00]

/-- A buffer with an ID3v2 tag whose synch-safe size bytes are `[0,0,2,1]`
(= 257): 10 header bytes, 257 zero tag-payload bytes, then one valid frame,
whose sync at offset 267 is the first `FF` byte of the buffer. -/
def c6good : List Nat := [0x49, 0x44, 0x33, 0x03, 0x00, 0x00, 0x00, 0x00, 0x02, 0x01] ++ List.replicate 257 0 ++ frameUnit

/-! ### Base64: the platform `btoa`/`atob` used by `uint8ArrayToBase64` and
`base64ToUint8Array` (`src/index.ts` lines 22-38), modelled from the WHATWG
infra "forgiving-base64" specification that defines them. -/

/-- The base64 alphabet, in sextet order. -/
def alphabet : List Char :=
  "ABCDEFGHIJKLMNOPQRSTUVWXYZabcdefghijklmnopqrstuvwxyz0123456789+/".toList

/-- The alphabet character of a sextet. -/
def b64Char (n : Nat) : Char := alphabet.getD n 'A'

/-- The sextet value of a character, `none` outside the alphabet. -/
def base64Val (c : Char) : Option Nat :=
  if 'A' ≤ c ∧ c ≤ 'Z' then some (c.toNat - 65)
  else if 'a' ≤ c ∧ c ≤ 'z' then some (c.toNat - 71)
  else if '0' ≤ c ∧ c ≤ '9' then some (c.toNat + 4)
  else if c = '+' then some 62
  else if c = '/' then some 63
  else none

/-- ASCII whitespace, removed by forgiving-base64 decoding. -/
def isB64Ws (c : Char) : Bool :=
  c = '\t' || c = '\n' || c = '\x0c' || c = '\r' || c = ' '

/-- Remove ASCII whitespace (first step of `atob`). -/
def stripWs (s : List Char) : List Char := s.filter (fun c => !(isB64Ws c))

/-- Remove one or two trailing `=` characters (second step of `atob`, applied
when the length is divisible by 4). -/
def stripPad (t : List Char) : List Char :=
  match t.reverse with
  | [] => t
  | a :: r =>
    if a = '=' then
      match r with
      | b :: r2 => if b = '=' then r2.reverse else r.reverse
      | [] => r.reverse
    else t

/-- Map every character to its sextet value, failing on any character outside
the alphabet (this is `atob`'s invalid-character error, `=` included since
padding has already been stripped). -/
def mapVals : List Char → Option (List Nat)
  | [] => some []
  | c :: t =>
    match base64Val c, mapVals t with
    | some v, some vs => some (v :: vs)
    | _, _ => none

/-- Reassemble bytes from sextets, 4 sextets to 3 bytes; a trailing group of
2 or 3 sextets yields 1 or 2 bytes with the leftover low bits discarded. -/
def decodeSextets : List Nat → List Nat
  | s0 :: s1 :: s2 :: s3 :: rest =>
    (s0 * 4 + s1 / 16) :: (s1 % 16 * 16 + s2 / 4) :: (s2 % 4 * 64 + s3) :: decodeSextets rest
  | [s0, s1, s2] => [s0 * 4 + s1 / 16, s1 % 16 * 16 + s2 / 4]
  | [s0, s1] => [s0 * 4 + s1 / 16]
  | _ => []

/-- The decoding tail of `atob`: fail when the (stripped) length is 1 mod 4,
otherwise map to sextets and reassemble. -/
def atobCore (u : List Char) : Option (List Nat) :=
  if u.length % 4 = 1 then none else (mapVals u).map decodeSextets

/-- Modelled from the WHATWG forgiving-base64 decode (the platform `atob`):
strip ASCII whitespace; when the remaining length is divisible by 4, drop up to
two trailing `=`; fail when the length is 1 mod 4 or a character is outside the
alphabet; decode sextet groups. -/
def atobModel (s : List Char) : Option (List Nat) :=
  let t := stripWs s
  atobCore (if t.length % 4 = 0 then stripPad t else t)

/-- Modelled from the platform `btoa`: encode byte triples as sextet
characters, padding a trailing group of 1 or 2 bytes with `==` or `=`. -/
def btoaChars : List Nat → List Char
  | [] => []
  | [b0] => [b64Char (b0 / 4), b64Char (b0 % 4 * 16), '=', '=']
  | [b0, b1] => [b64Char (b0 / 4), b64Char (b0 % 4 * 16 + b1 / 16), b64Char (b1 % 16 * 4), '=']
  | b0 :: b1 :: b2 :: rest =>
    b64Char (b0 / 4) :: b64Char (b0 % 4 * 16 + b1 / 16) ::
      b64Char (b1 % 16 * 4 + b2 / 64) :: b64Char (b2 % 64) :: btoaChars rest

/-- `uint8ArrayToBase64(bytes)` (`src/index.ts` lines 32-38): the binary string
is the char codes of the bytes, and `btoa` encodes those codes. -/
def uint8ArrayToBase64 (bytes : List Nat) : List Char := btoaChars bytes

/-- `base64ToUint8Array(base64)` (`src/index.ts` lines 22-29): `atob`, then the
char code of every character of the binary string; `none` models the
`InvalidCharacterError` that `atob` throws. -/
def base64ToUint8Array (base64 : List Char) : Option (List Nat) := atobModel base64

/-- Proof scaffolding: the unpadded sextet characters of a byte list
(`btoaChars` without the trailing `=` padding). -/
def sexChars : List Nat → List Char
  | [] => []
  | [b0] => [b64Char (b0 / 4), b64Char (b0 % 4 * 16)]
  | [b0, b1] => [b64Char (b0 / 4), b64Char (b0 % 4 * 16 + b1 / 16), b64Char (b1 % 16 * 4)]
  | b0 :: b1 :: b2 :: rest =>
    b64Char (b0 / 4) :: b64Char (b0 % 4 * 16 + b1 / 16) ::
      b64Char (b1 % 16 * 4 + b2 / 64) :: b64Char (b2 % 64) :: sexChars rest

/-- Proof scaffolding: the `=` padding `btoaChars` appends after `sexChars`. -/
def padChars (l : List Nat) : List Char :=
  if l.length % 3 = 1 then ['=', '='] else if l.length % 3 = 2 then ['='] else []

/-! ### The `fetch` request handler (`src/index.ts` lines 216-260) -/

/-- The line terminators that the JavaScript regex atom `.` does not match. -/
def isLineTerm (c : Char) : Bool :=
  c = '\n' || c = '\r' || c = '\u2028' || c = '\u2029'

/-- The capture of `input.match(/^data:[^;]+;base64,(.*)$/)` used by
`normalizeBase64` (`src/index.ts` lines 4-8). The match is deterministic: the
greedy `[^;]+` must stop exactly at the first `;`, which then has to start the
literal `;base64,`, and `(.*)$` succeeds exactly when no line terminator
remains. -/
def dataUriCapture (s : List Char) : Option (List Char) :=
  if s.take 5 = ['d', 'a', 't', 'a', ':'] then
    let rest := s.drop 5
    let t := rest.takeWhile (fun c => c ≠ ';')
    let u := rest.drop t.length
    if t ≠ [] ∧ u.take 8 = [';', 'b', 'a', 's', 'e', '6', '4', ','] ∧
        (u.drop 8).all (fun c => !(isLineTerm c)) then
      some (u.drop 8)
    else none
  else none

/-- `normalizeBase64(input)` (`src/index.ts` lines 4-8): empty (falsy) input
gives `''`; a data-URI match gives its captured base64 part; otherwise the
input is returned unchanged. -/
def normalizeBase64 (input : String) : String :=
  if input = "" then ""
  else
    match dataUriCapture input.toList with
    | some r => String.mk r
    | none => input

/-- One request segment as the handler reads it: the `dataUri`, `dataBase64`
and `startMs` properties (each possibly absent). -/
structure AudioSegment where
  dataUri : Option String
  dataBase64 : Option String
  startMs : Option Int
deriving DecidableEq

/-- The JavaScript `seg.dataUri || seg.dataBase64` (`src/index.ts` line 238):
an absent or empty `dataUri` is falsy and falls through to `dataBase64`
(absent `dataBase64` giving the falsy `undefined`, which `normalizeBase64`
turns into `''`). -/
def jsOrStr (a b : Option String) : String :=
  match a with
  | some s => if s = "" then b.getD "" else s
  | none => b.getD ""

/-- The normalized base64 payload of a segment (`src/index.ts` line 238). -/
def segPayload (seg : AudioSegment) : String :=
  normalizeBase64 (jsOrStr seg.dataUri seg.dataBase64)

/-- The sort key `(seg.startMs ?? 0)` of the comparator at
`src/index.ts` line 231. -/
def segKey (seg : AudioSegment) : Int := seg.startMs.getD 0

/-- The order the comparator `(a.startMs ?? 0) - (b.startMs ?? 0)` induces. -/
def segLE (a b : AudioSegment) : Prop := segKey a ≤ segKey b

instance : DecidableRel segLE := fun a b => inferInstanceAs (Decidable (segKey a ≤ segKey b))

instance : IsTotal AudioSegment segLE := ⟨fun a b => Int.le_total (segKey a) (segKey b)⟩

instance : IsTrans AudioSegment segLE := ⟨fun _ _ _ h1 h2 => Int.le_trans h1 h2⟩

/-- `audioSegments.sort(...)` (`src/index.ts` line 231): JavaScript's `sort` is
a stable sort, so with the key comparator it is the stable ascending sort by
`segKey` — elements with equal keys keep their array order. -/
def sortSegments (audioSegments : List AudioSegment) : List AudioSegment :=
  List.insertionSort segLE audioSegments

/-- The error outcomes of the handler: the two 400 input-validation responses
(`audioSegments array required`, `Segment i missing base64`) and the 500
`Failed to merge audio` response produced by the surrounding `try/catch`. -/
inductive MergeError where
  | noSegments
  | missingBase64
  | mergeFailed
deriving DecidableEq

/-- The HTTP status the handler attaches to each error
(`src/index.ts` lines 217-225, 239-247, 286-298). -/
def MergeError.status : MergeError → Nat
  | .noSegments => 400
  | .missingBase64 => 400
  | .mergeFailed => 500

/-- The segment-decoding loop (`src/index.ts` lines 236-252): for each segment
in sorted order, a falsy normalized payload aborts with the 400
`missing base64` response, a payload `atob` cannot decode throws and aborts
with the 500 response, and otherwise the decoded buffer is collected. -/
def decodeSegments : List AudioSegment → Except MergeError (List (List Nat))
  | [] => .ok []
  | seg :: rest =>
    if segPayload seg = "" then .error .missingBase64
    else
      match base64ToUint8Array (segPayload seg).toList with
      | none => .error .mergeFailed
      | some buffer =>
        match decodeSegments rest with
        | .error e => .error e
        | .ok buffers => .ok (buffer :: buffers)

/-- The handler body after sorting (`src/index.ts` lines 236-260): decode all
segments, concatenate, normalize volume. -/
def processSorted (sorted : List AudioSegment) : Except MergeError (List Nat) :=
  match decodeSegments sorted with
  | .error e => .error e
  | .ok audioBuffers =>
    match fetchMerge audioBuffers with
    | none => .error .mergeFailed
    | some normalizedBuffer => .ok normalizedBuffer

/-- The `fetch` handler for a POST request with a well-formed JSON body
(`src/index.ts` lines 216-260): reject an empty segment collection with the
400 validation error, otherwise sort and process. The result carries the byte
buffer that the response base64-encodes. -/
def handleRequest (audioSegments : List AudioSegment) : Except MergeError (List Nat) :=
  if audioSegments.isEmpty then .error .noSegments
  else processSorted (sortSegments audioSegments)

/-- Segment with payload `AQ==` (the byte `[1]`) at `startMs` 0. -/
def segAQ : AudioSegment := ⟨none, some "AQ==", some 0⟩

/-- Segment with payload `Ag==` (the byte `[2]`) at `startMs` 0. -/
def segAg : AudioSegment := ⟨none, some "Ag==", some 0⟩

/-- Segment with payload `AQ==` at `startMs` 5. -/
def segK5 : AudioSegment := ⟨none, some "AQ==", some 5⟩

/-- Segment with payload `Ag==` at `startMs` 3. -/
def segK3 : AudioSegment := ⟨none, some "Ag==", some 3⟩

/-- Segment whose payload `!` is present but not decodable base64. -/
def segBad : AudioSegment := ⟨none, some "!", some 0⟩

/-- Segment with no payload at all. -/
def segMissing : AudioSegment := ⟨none, none, some 0⟩

/-! ## Theorems -/

/-- Claim C1, code bug: for the valid MPEG-1 Layer III header `FF FB 90 00`
(bitrate index 9 = 128 kbps, sample rate 44100 Hz, padding 0, version field
`11` = MPEG-1 as the third conjunct shows), the claimed frame length is
`floor(128000 * 144 / 44100) + 0 = 417`, but `getMP3FrameSize` records `361`:
it reads the bitrate, sample-rate and padding fields from the wrong bit
positions of a 16-bit quantity and divides by `sampleRate * 4` instead of
`sampleRate`. The buffer is 500 bytes long, so the discrepancy is not
final-frame clipping. -/
theorem C1_frame_length_bug :
    getMP3FrameSize c1buf 0 = 361 ∧ specFrameLength 0x90 = 417 ∧
      ((0xFB >>> 3) &&& 0x3 : Nat) = 3 ∧ (361 : Nat) ≠ 417 := by
  decide

/-- Claim C7, code bug: the header at offset 0 of `c7buf` has layer id `00`
(reserved) and bitrate index `0000`, so by the claim the candidate must be
rejected (`specHeaderValid` is `false` on it); `findMP3FrameSync` nevertheless
accepts it and returns offset 0, because it extracts the version, layer,
bitrate and sample-rate fields by shifting a 16-bit quantity right by
19, 17, 12 and 10 bits, which makes the version/layer/bitrate tests vacuous
for any synced candidate. -/
theorem C7_validation_bug :
    findMP3FrameSync c7buf 0 = some 0 ∧ specHeaderValid 0xE0 0x00 = false := by
  decide

/-- Claim C2, counterexample: the served output of the `fetch` pipeline
(engine followed by `normalizeVolume`) on the single segment `[255]` is
`[204]`; the byte `204` equals no byte of the input at any offset, so output
bytes are not byte-for-byte copies of input bytes. -/
theorem C2_counterexample :
    fetchMerge [[255]] = some [204] ∧ (204 : Nat) ≠ 255 := by
  decide

/-- Every byte of every frame extracted by the scanner loop is a byte of the
scanned buffer (each frame is a contiguous slice of the buffer). -/
theorem mem_buffer_of_mem_extractFramesAux (buffer : List Nat) :
    ∀ (fuel frameStart : Nat) (f : List Nat), f ∈ extractFramesAux buffer fuel frameStart →
      ∀ b ∈ f, b ∈ buffer := by
  intro fuel
  induction fuel with
  | zero => intro s f hf; simp [extractFramesAux] at hf
  | succ n ih =>
    intro s f hf b hb
    rw [extractFramesAux] at hf
    split at hf
    · dsimp only at hf
      split at hf
      · simp at hf
      · split at hf
        · rw [List.mem_singleton] at hf
          subst hf
          exact (((List.take_sublist _ _).trans (List.drop_sublist _ _))).mem hb
        · rcases List.mem_cons.mp hf with rfl | hf2
          · exact (((List.take_sublist _ _).trans (List.drop_sublist _ _))).mem hb
          · exact ih _ f hf2 b hb
    · simp at hf

/-- Every byte of every frame delivered by `segScan` is a byte of the buffer. -/
theorem mem_buffer_of_mem_segScan (buffer : List Nat) (sf : List (List Nat))
    (h : segScan buffer = some sf) : ∀ f ∈ sf, ∀ b ∈ f, b ∈ buffer := by
  unfold segScan at h
  obtain ⟨st, _, rfl⟩ := Option.map_eq_some'.mp h
  exact fun f hf => mem_buffer_of_mem_extractFramesAux buffer _ st f hf

/-- Every entry produced by one step of the segment loop is either an entry
that was already in the accumulated plan or a list of bytes of the new buffer. -/
theorem mem_step_cases (entries : List (List Nat)) (i : Nat) (buffer : List Nat)
    (f : List Nat) (hf : f ∈ stepSegment entries i buffer) :
    f ∈ entries ∨ ∀ b ∈ f, b ∈ buffer := by
  unfold stepSegment at hf
  rcases hscan : segScan buffer with _ | sf <;> rw [hscan] at hf <;> simp only at hf
  · rcases List.mem_append.mp hf with h | h
    · exact Or.inl h
    · rw [List.mem_singleton] at h
      subst h
      exact Or.inr fun b hb => hb
  · split at hf
    · rcases List.mem_append.mp hf with h | h
      · exact Or.inl ((List.take_sublist _ _).mem h)
      · exact Or.inr fun b hb =>
          mem_buffer_of_mem_segScan buffer sf hscan f ((List.drop_sublist _ _).mem h) b hb
    · rcases List.mem_append.mp hf with h | h
      · exact Or.inl h
      · exact Or.inr fun b hb => mem_buffer_of_mem_segScan buffer sf hscan f h b hb

/-- Every entry produced by the full segment loop is either an initial entry
or a list of bytes of one of the looped-over buffers. -/
theorem mem_concatLoop_cases :
    ∀ (bufs entries : List (List Nat)) (i : Nat) (f : List Nat),
      f ∈ concatLoop entries i bufs →
        f ∈ entries ∨ ∃ buf ∈ bufs, ∀ b ∈ f, b ∈ buf := by
  intro bufs
  induction bufs with
  | nil => intro e i f hf; exact Or.inl hf
  | cons buffer rest ih =>
    intro e i f hf
    rcases ih (stepSegment e i buffer) (i + 1) f hf with h | ⟨buf, hbuf, hb⟩
    · rcases mem_step_cases e i buffer f h with h2 | h2
      · exact Or.inl h2
      · exact Or.inr ⟨buffer, List.mem_cons_self buffer rest, h2⟩
    · exact Or.inr ⟨buf, List.mem_cons_of_mem _ hbuf, hb⟩

/-- Claim C2, amended: the concatenation engine itself (`concatenateMP3Files`)
only copies input bytes — every byte of its output buffer occurs in one of the
input segment buffers — but the served `fetch` output additionally passes
through `normalizeVolume`, which rewrites every byte `b` to
`min(255, floor(b * 0.8))`, so served bytes are in general not equal to any
input byte (see the counterexample). -/
theorem C2_engine_only_copies (audioBuffers : List (List Nat)) (out : List Nat)
    (h : concatenateMP3Files audioBuffers = some out) :
    ∀ b ∈ out, b ∈ audioBuffers.flatten := by
  intro b hb
  rcases audioBuffers with _ | ⟨b0, _ | ⟨b1, rest⟩⟩
  · exact absurd h (by simp [concatenateMP3Files])
  · rw [show concatenateMP3Files [b0] = some b0 from rfl] at h
    injection h with h
    subst h
    simpa using hb
  · rw [show concatenateMP3Files (b0 :: b1 :: rest) =
        some (List.flatten (concatLoop [] 0 (b0 :: b1 :: rest))) from rfl] at h
    injection h with h
    subst h
    rcases List.mem_flatten.mp hb with ⟨f, hf, hbf⟩
    rcases mem_concatLoop_cases _ [] 0 f hf with h2 | ⟨buf, hbuf, hmem⟩
    · simp at h2
    · exact List.mem_flatten.mpr ⟨buf, hbuf, hmem b hbf⟩

/-- Witness for `C2_engine_only_copies` at the concrete input `[[1], [2]]`
(whose engine output is `[1, 2]`). -/
theorem C2_engine_only_copies_witness : (1 : Nat) ∈ List.flatten [[1], [2]] :=
  C2_engine_only_copies [[1], [2]] [1, 2] rfl 1 (by decide)

/-- Claim C4, counterexample: a single-segment input that starts with a 10-byte
ID3v2 tag and contains a valid frame sync at offset 10 is returned byte-for-byte
verbatim by the engine — the leading ID3 bytes (`49 44 33 …`) appear in the
output, where the claim requires the output to start at the first frame sync
with the ID3 block removed (here: `c4buf.drop 10`). -/
theorem C4_counterexample :
    concatenateMP3Files [c4buf] = some c4buf ∧
      findMP3FrameSync c4buf 0 = some 10 ∧ c4buf ≠ List.drop 10 c4buf := by
  refine ⟨rfl, by decide, by decide⟩

/-- Claim C4, amended: for every single-segment input the engine returns the
segment's buffer unchanged (the `audioBuffers.length === 1` early return at
`src/index.ts` lines 90-92); ID3 stripping and sync scanning happen only for
inputs of two or more segments. -/
theorem C4_single_segment_verbatim (buffer : List Nat) :
    concatenateMP3Files [buffer] = some buffer := rfl

/-- Claim C3, counterexample: segment `c3a` scans to 2 frames (no more than
the trim constant `crossfadeFrames = 3`), so by the claim no frame of it may be
removed at its boundaries; segment `c3b` scans to 4 frames. The engine's output
on `[c3a, c3b]` is a single frame: because `c3b` has more than 3 frames, the
code removes `min(3, 2) = 2` entries — all of `c3a` — from the global plan tail
and the first 3 frames of `c3b`. The sync byte `255` occurs once per frame:
6 times in the input segments, once in the output. -/
theorem C3_counterexample :
    concatenateMP3Files [c3a, c3b] = some frameUnit ∧
      frameUnit.count 255 = 1 ∧ c3a.count 255 = 2 ∧ c3b.count 255 = 4 := by
  refine ⟨rfl, by decide, by decide, by decide⟩

/-- Claim C3, amended: for two segments `a`, `b` in order, trimming at their
boundary is triggered solely by `b`'s frame count: if `b` scans to more than
`crossfadeFrames = 3` frames, the output drops the last
`min(3, |planOf a|)` entries of the accumulated plan (whatever segment they
came from — `a`'s frame count is never consulted, so `a` can lose frames even
when it has 3 or fewer, down to zero) together with the first 3 frames of `b`;
if `b` scans to 3 or fewer frames, nothing is trimmed at the boundary. -/
theorem C3_boundary_trim (a b : List Nat) (fb : List (List Nat))
    (hb : segScan b = some fb) :
    (crossfadeFrames < fb.length →
      concatenateMP3Files [a, b] =
        some (List.flatten ((planOf a).take ((planOf a).length - min crossfadeFrames (planOf a).length)
          ++ fb.drop crossfadeFrames))) ∧
    (fb.length ≤ crossfadeFrames →
      concatenateMP3Files [a, b] = some (List.flatten (planOf a ++ fb))) := by
  have hred : concatenateMP3Files [a, b] =
      some (List.flatten (stepSegment (planOf a) 1 b)) := rfl
  constructor
  · intro h
    rw [hred]
    unfold stepSegment
    rw [hb]
    simp only
    rw [if_pos ⟨Nat.one_pos, h⟩]
  · intro h
    rw [hred]
    unfold stepSegment
    rw [hb]
    simp only
    rw [if_neg fun hc => absurd hc.2 (Nat.not_lt.mpr h)]

/-- Witness for `C3_boundary_trim` at `a = c3big` (5 frames) and `b = c3b`
(4 frames): the output keeps `5 - 3 = 2` frames of `a` and `4 - 3 = 1` frame
of `b`. -/
theorem C3_boundary_trim_witness :
    concatenateMP3Files [c3big, c3b] =
      some (frameUnit ++ frameUnit ++ frameUnit) := by
  have h := (C3_boundary_trim c3big c3b
    [frameUnit, frameUnit, frameUnit, frameUnit] rfl).1 (by decide)
  rw [h]
  decide

/-- The segment loop over `l ++ m` is the loop over `m` started from the state
the loop over `l` reaches (with the running segment index carried across). -/
theorem concatLoop_append (l m : List (List Nat)) :
    ∀ (entries : List (List Nat)) (i : Nat),
      concatLoop entries i (l ++ m) = concatLoop (concatLoop entries i l) (i + l.length) m := by
  induction l with
  | nil => intro e i; rfl
  | cons buffer rest ih =>
    intro e i
    show concatLoop (stepSegment e i buffer) (i + 1) (rest ++ m) =
      concatLoop (concatLoop (stepSegment e i buffer) (i + 1) rest) (i + (rest.length + 1)) m
    rw [ih]
    congr 1
    omega

/-- Claim C5, counterexample: the raw segment `[1, 2, 3]` contains no sync
pattern, so by the claim its three bytes must appear verbatim exactly once in
the output and no trim may touch it; but followed by the 4-frame segment `c3b`
the engine's output is a single frame — the next segment's trim removed the
raw entry from the plan, and the raw bytes appear zero times. -/
theorem C5_counterexample :
    findMP3FrameSync [1, 2, 3] 0 = none ∧
      concatenateMP3Files [[1, 2, 3], c3b] = some frameUnit ∧
      frameUnit.count 1 = 0 := by
  refine ⟨by decide, rfl, by decide⟩

/-- Claim C5, amended: a zero-frame segment never makes the engine fail — for
any non-empty input the engine produces an output — and the raw buffer is
appended to the plan as one opaque unmodified entry without itself triggering
any trimming; in particular a raw segment in the **last** position appears
verbatim at the end of the output. However, a *later* segment with more than
`crossfadeFrames` frames removes trailing plan entries, which can delete the
raw entry (see the counterexample). -/
theorem C5_raw_fallback :
    (∀ bufs : List (List Nat), bufs ≠ [] → concatenateMP3Files bufs ≠ none) ∧
    (∀ (bufs : List (List Nat)) (buffer : List Nat), bufs ≠ [] →
      findMP3FrameSync buffer 0 = none →
      concatenateMP3Files (bufs ++ [buffer]) =
        some (List.flatten (concatLoop [] 0 bufs) ++ buffer)) := by
  constructor
  · intro bufs hne
    rcases bufs with _ | ⟨b0, _ | ⟨b1, rest⟩⟩
    · exact absurd rfl hne
    · exact fun h => Option.noConfusion h
    · exact fun h => Option.noConfusion h
  · intro bufs buffer hne hraw
    have hstep : ∀ (e : List (List Nat)) (j : Nat),
        stepSegment e j buffer = e ++ [buffer] := by
      intro e j
      unfold stepSegment
      rw [show segScan buffer = none by rw [segScan, scanStart, hraw]; rfl]
    rcases bufs with _ | ⟨b0, rest⟩
    · exact absurd rfl hne
    · have hcons : ∃ c u, rest ++ [buffer] = c :: u := by
        rcases rest with _ | ⟨c, u⟩
        · exact ⟨buffer, [], rfl⟩
        · exact ⟨c, u ++ [buffer], rfl⟩
      obtain ⟨c, u, hcu⟩ := hcons
      have hmain : concatenateMP3Files ((b0 :: rest) ++ [buffer]) =
          some (List.flatten (concatLoop [] 0 ((b0 :: rest) ++ [buffer]))) := by
        show concatenateMP3Files (b0 :: (rest ++ [buffer])) =
          some (List.flatten (concatLoop [] 0 (b0 :: (rest ++ [buffer]))))
        rw [hcu]
        rfl
      rw [hmain, concatLoop_append]
      show some (List.flatten (stepSegment (concatLoop [] 0 (b0 :: rest)) _ buffer)) = _
      rw [hstep]
      rw [List.flatten_append]
      simp

/-- Witness for `C5_raw_fallback` (second part) at `bufs = [[5]]` and the raw
buffer `[9]`: output `[5] ++ [9]`. -/
theorem C5_raw_fallback_witness :
    concatenateMP3Files [[5], [9]] = some [5, 9] := by
  have h := C5_raw_fallback.2 [[5]] [9] (by decide) (by decide)
  simpa using h

/-- Claim C6, counterexample: `c6buf` starts with the literal marker `ID3` and
its synch-safe size bytes `[0,0,2,1]` decode to 257, so by the claim frame
scanning must begin at `10 + 257 = 267`; but the buffer carries an accepted
sync pattern at offset 3 (≤ 10), so the engine's ID3 branch
(guarded by `frameStart > 10`) never fires and scanning begins at offset 3. -/
theorem C6_counterexample :
    c6buf.take 3 = [0x49, 0x44, 0x33] ∧ id3Size c6buf = 257 ∧
      scanStart c6buf = some 3 ∧ scanStart c6buf ≠ some 267 := by
  decide

/-- Claim C6, amended: the ID3 skip applies only when the *first accepted sync
offset* exceeds 10; in that case, for a buffer whose first three bytes are
`ID3`, frame scanning begins at `10 + size` with `size` the synch-safe integer
`b6<<21 | b7<<14 | b8<<7 | b9`. When an accepted sync occurs at offset ≤ 10
the tag is not skipped (counterexample), and for single-segment inputs no
scanning happens at all (`C4_single_segment_verbatim`). -/
theorem C6_id3_skip (buffer : List Nat) (fs0 : Nat)
    (hsync : findMP3FrameSync buffer 0 = some fs0) (h10 : 10 < fs0)
    (hid3 : buffer.take 3 = [0x49, 0x44, 0x33]) :
    scanStart buffer = some (10 + id3Size buffer) := by
  rcases buffer with _ | ⟨x, _ | ⟨y, _ | ⟨z, rest⟩⟩⟩
  · simp at hid3
  · simp [List.take] at hid3
  · simp [List.take] at hid3
  · have hx : x = 0x49 ∧ y = 0x44 ∧ z = 0x33 := by
      simpa [List.take] using hid3
    obtain ⟨rfl, rfl, rfl⟩ := hx
    rw [scanStart, hsync]
    show some (id3AdjustedStart _ fs0) = _
    rw [id3AdjustedStart, if_pos ⟨h10, rfl, rfl, rfl⟩]

/-- Witness for `C6_id3_skip` at `c6good` (tag size 257, first sync at 267):
scanning begins at byte offset 267, the claim's scenario value. -/
theorem C6_id3_skip_witness : scanStart c6good = some 267 := by
  have h := C6_id3_skip c6good 267 (by decide) (by decide) (by decide)
  simpa using h

/-- Claim C8, counterexample: `segAQ` and `segAg` declare the same
`startMs = 0` but the sort comparator has no original-index tie-break
(JavaScript's stable sort keeps ties in *array* order), so the two input
permutations produce different outputs. -/
theorem C8_counterexample :
    segKey segAQ = segKey segAg ∧
      handleRequest [segAQ, segAg] = Except.ok [0, 1] ∧
      handleRequest [segAg, segAQ] = Except.ok [1, 0] ∧
      ([0, 1] : List Nat) ≠ [1, 0] := by
  refine ⟨rfl, rfl, rfl, by decide⟩

/-- Claim C8, amended: segment order is `startMs` ascending with ties kept in
input-array order (stable sort, no index tie-break); consequently reordering
the input array yields a byte-identical output whenever the declared `startMs`
values are pairwise distinct — with equal keys it need not (counterexample). -/
theorem C8_order_by_start_time (segs1 segs2 : List AudioSegment)
    (hp : segs1.Perm segs2)
    (hd : segs1.Pairwise fun a b => segKey a ≠ segKey b) :
    handleRequest segs1 = handleRequest segs2 := by
  have hsym : ∀ {a b : AudioSegment}, segKey a ≠ segKey b → segKey b ≠ segKey a :=
    fun h e => h e.symm
  have hperm : (sortSegments segs1).Perm (sortSegments segs2) :=
    (List.perm_insertionSort segLE segs1).trans
      (hp.trans (List.perm_insertionSort segLE segs2).symm)
  have hd1 : (sortSegments segs1).Pairwise fun a b => segKey a ≠ segKey b :=
    ((List.perm_insertionSort segLE segs1).pairwise_iff hsym).mpr hd
  have hd2 : (sortSegments segs2).Pairwise fun a b => segKey a ≠ segKey b :=
    ((List.perm_insertionSort segLE segs2).pairwise_iff hsym).mpr
      ((hp.pairwise_iff hsym).mp hd)
  have hs1 : (sortSegments segs1).Pairwise segLE :=
    List.sorted_insertionSort segLE segs1
  have hs2 : (sortSegments segs2).Pairwise segLE :=
    List.sorted_insertionSort segLE segs2
  have hlt1 : (sortSegments segs1).Pairwise fun a b => segKey a < segKey b :=
    (hs1.and hd1).imp fun h => lt_of_le_of_ne h.1 h.2
  have hlt2 : (sortSegments segs2).Pairwise fun a b => segKey a < segKey b :=
    (hs2.and hd2).imp fun h => lt_of_le_of_ne h.1 h.2
  haveI : IsAntisymm AudioSegment fun a b => segKey a < segKey b :=
    ⟨fun _ _ h1 h2 => absurd (h1.trans h2) (lt_irrefl _)⟩
  have hsort : sortSegments segs1 = sortSegments segs2 :=
    List.eq_of_perm_of_sorted hperm hlt1 hlt2
  rcases segs1 with _ | ⟨a, t⟩
  · rw [List.Perm.eq_nil hp.symm]
  · rcases segs2 with _ | ⟨b, u⟩
    · exact absurd hp.length_eq (by simp)
    · show processSorted (sortSegments (a :: t)) = processSorted (sortSegments (b :: u))
      rw [hsort]

/-- Witness for `C8_order_by_start_time`: two segments with distinct
`startMs` (5 and 3) given in either array order produce the same output. -/
theorem C8_order_by_start_time_witness :
    handleRequest [segK5, segK3] = handleRequest [segK3, segK5] :=
  C8_order_by_start_time _ _ (List.Perm.swap segK3 segK5 []) (by decide)

/-- Claim C9, counterexample: the collection `[segBad, segMissing]` contains a
segment with no base64 payload, yet the handler rejects it with the 500
`Failed to merge audio` processing error — the earlier-sorted segment's
undecodable payload throws inside `atob` first — not with an
input-validation (400) error. -/
theorem C9_counterexample :
    segPayload segMissing = "" ∧
      handleRequest [segBad, segMissing] = Except.error MergeError.mergeFailed ∧
      MergeError.mergeFailed.status = 500 ∧ MergeError.missingBase64.status = 400 :=
  ⟨rfl, rfl, rfl, rfl⟩

/-- A segment list containing a segment with an empty normalized payload is
never fully decoded: the decoding loop aborts with some error. -/
theorem decodeSegments_error_of_missing :
    ∀ segs : List AudioSegment, (∃ s ∈ segs, segPayload s = "") →
      ∃ e, decodeSegments segs = Except.error e := by
  intro segs
  induction segs with
  | nil => rintro ⟨s, hs, _⟩; simp at hs
  | cons seg rest ih =>
    rintro ⟨s, hs, hp⟩
    by_cases hseg : segPayload seg = ""
    · exact ⟨MergeError.missingBase64, by simp only [decodeSegments]; rw [if_pos hseg]⟩
    · have hs2 : s ∈ rest := by
        rcases List.mem_cons.mp hs with rfl | h
        · exact absurd hp hseg
        · exact h
      obtain ⟨e, he⟩ := ih ⟨s, hs2, hp⟩
      rcases hA : base64ToUint8Array (segPayload seg).toList with _ | buf
      · exact ⟨MergeError.mergeFailed, by simp only [decodeSegments]; rw [if_neg hseg, hA]⟩
      · exact ⟨e, by simp only [decodeSegments]; rw [if_neg hseg, hA, he]⟩

/-- When some segment's normalized payload is empty and every non-empty
payload in the list is decodable, the decoding loop aborts with exactly the
`missing base64` validation error. -/
theorem decodeSegments_missing_first :
    ∀ segs : List AudioSegment, (∃ s ∈ segs, segPayload s = "") →
      (∀ s ∈ segs, segPayload s = "" ∨ base64ToUint8Array (segPayload s).toList ≠ none) →
      decodeSegments segs = Except.error MergeError.missingBase64 := by
  intro segs
  induction segs with
  | nil => rintro ⟨s, hs, _⟩; simp at hs
  | cons seg rest ih =>
    rintro ⟨s, hs, hp⟩ hall
    by_cases hseg : segPayload seg = ""
    · simp only [decodeSegments]; rw [if_pos hseg]
    · have hs2 : s ∈ rest := by
        rcases List.mem_cons.mp hs with rfl | h
        · exact absurd hp hseg
        · exact h
      have hA : base64ToUint8Array (segPayload seg).toList ≠ none :=
        (hall seg (List.mem_cons_self seg rest)).resolve_left hseg
      rcases hA2 : base64ToUint8Array (segPayload seg).toList with _ | buf
      · exact absurd hA2 hA
      · have hrec := ih ⟨s, hs2, hp⟩ fun x hx => hall x (List.mem_cons_of_mem _ hx)
        simp only [decodeSegments]
        rw [if_neg hseg, hA2, hrec]

/-- Claim C9, amended: an empty segment collection is rejected with the 400
validation error; a collection containing a segment with no/empty base64
payload never produces an output stream; and the rejection is the 400
`missing base64` input-validation error whenever the payloads of the other
segments are decodable (otherwise an earlier-sorted undecodable payload
aborts the request first with the 500 processing error — counterexample —
still producing no output). -/
theorem C9_input_validation :
    handleRequest [] = Except.error MergeError.noSegments ∧
    (∀ segs : List AudioSegment, (∃ s ∈ segs, segPayload s = "") →
      ∀ out : List Nat, handleRequest segs ≠ Except.ok out) ∧
    (∀ segs : List AudioSegment, (∃ s ∈ segs, segPayload s = "") →
      (∀ s ∈ segs, segPayload s = "" ∨ base64ToUint8Array (segPayload s).toList ≠ none) →
      handleRequest segs = Except.error MergeError.missingBase64) := by
  refine ⟨rfl, ?_, ?_⟩
  · rintro segs ⟨s, hs, hp⟩ out
    rcases segs with _ | ⟨a, t⟩
    · simp at hs
    · have hmem : s ∈ sortSegments (a :: t) :=
        (List.perm_insertionSort segLE (a :: t)).mem_iff.mpr hs
      obtain ⟨e, he⟩ := decodeSegments_error_of_missing _ ⟨s, hmem, hp⟩
      show processSorted (sortSegments (a :: t)) ≠ Except.ok out
      simp [processSorted, he]
  · rintro segs ⟨s, hs, hp⟩ hall
    rcases segs with _ | ⟨a, t⟩
    · simp at hs
    · have hmem : s ∈ sortSegments (a :: t) :=
        (List.perm_insertionSort segLE (a :: t)).mem_iff.mpr hs
      have hall2 : ∀ x ∈ sortSegments (a :: t),
          segPayload x = "" ∨ base64ToUint8Array (segPayload x).toList ≠ none :=
        fun x hx => hall x ((List.perm_insertionSort segLE (a :: t)).mem_iff.mp hx)
      have he := decodeSegments_missing_first _ ⟨s, hmem, hp⟩ hall2
      show processSorted (sortSegments (a :: t)) = Except.error MergeError.missingBase64
      simp [processSorted, he]

/-- Witness for `C9_input_validation` (third conjunct) at the singleton
collection whose only segment has no payload. -/
theorem C9_input_validation_witness :
    handleRequest [segMissing] = Except.error MergeError.missingBase64 :=
  C9_input_validation.2.2 [segMissing] ⟨segMissing, List.mem_singleton.mpr rfl, rfl⟩
    fun s hs => Or.inl (by rw [List.mem_singleton.mp hs]; rfl)

/-- Induction along the 3-byte chunking used by the base64 encoder. -/
theorem chunk3_ind (P : List Nat → Prop) (h0 : P []) (h1 : ∀ a, P [a])
    (h2 : ∀ a b, P [a, b]) (h3 : ∀ a b c t, P t → P (a :: b :: c :: t)) : ∀ l, P l
  | [] => h0
  | [a] => h1 a
  | [a, b] => h2 a b
  | a :: b :: c :: t => h3 a b c t (chunk3_ind P h0 h1 h2 h3 t)

/-- Decoding inverts the alphabet on every sextet. -/
theorem b64Char_val_bounded : ∀ n < 64, base64Val (b64Char n) = some n := by decide

/-- The alphabet has 64 characters. -/
theorem alphabet_length : alphabet.length = 64 := by decide

/-- No alphabet character (nor the out-of-range default) is the padding `=`. -/
theorem b64Char_ne_pad : ∀ n : Nat, b64Char n ≠ '=' := by
  intro n
  rcases Nat.lt_or_ge n 64 with h | h
  · exact (by decide : ∀ m < 64, b64Char m ≠ '=') n h
  · rw [b64Char, List.getD_eq_default]
    · decide
    · rw [alphabet_length]; omega

/-- No alphabet character (nor the default) is ASCII whitespace. -/
theorem b64Char_not_ws : ∀ n : Nat, isB64Ws (b64Char n) = false := by
  intro n
  rcases Nat.lt_or_ge n 64 with h | h
  · exact (by decide : ∀ m < 64, isB64Ws (b64Char m) = false) n h
  · rw [b64Char, List.getD_eq_default]
    · decide
    · rw [alphabet_length]; omega

/-- Every character `btoaChars` emits is padding or an alphabet character. -/
theorem mem_btoaChars : ∀ l : List Nat, ∀ c ∈ btoaChars l, c = '=' ∨ ∃ n, c = b64Char n := by
  refine chunk3_ind _ ?_ ?_ ?_ ?_
  · intro c hc; simp [btoaChars] at hc
  · intro a c hc
    simp [btoaChars] at hc
    rcases hc with rfl | rfl | rfl
    · exact Or.inr ⟨_, rfl⟩
    · exact Or.inr ⟨_, rfl⟩
    · exact Or.inl rfl
  · intro a b x hx
    simp [btoaChars] at hx
    rcases hx with rfl | rfl | rfl | rfl
    · exact Or.inr ⟨_, rfl⟩
    · exact Or.inr ⟨_, rfl⟩
    · exact Or.inr ⟨_, rfl⟩
    · exact Or.inl rfl
  · intro a b c t ih x hx
    simp only [btoaChars, List.mem_cons] at hx
    rcases hx with rfl | rfl | rfl | rfl | hx
    · exact Or.inr ⟨_, rfl⟩
    · exact Or.inr ⟨_, rfl⟩
    · exact Or.inr ⟨_, rfl⟩
    · exact Or.inr ⟨_, rfl⟩
    · exact ih x hx

/-- Every character `sexChars` emits is an alphabet character. -/
theorem mem_sexChars : ∀ l : List Nat, ∀ c ∈ sexChars l, ∃ n, c = b64Char n := by
  refine chunk3_ind _ ?_ ?_ ?_ ?_
  · intro c hc; simp [sexChars] at hc
  · intro a c hc
    simp [sexChars] at hc
    rcases hc with rfl | rfl
    · exact ⟨_, rfl⟩
    · exact ⟨_, rfl⟩
  · intro a b x hx
    simp [sexChars] at hx
    rcases hx with rfl | rfl | rfl
    · exact ⟨_, rfl⟩
    · exact ⟨_, rfl⟩
    · exact ⟨_, rfl⟩
  · intro a b c t ih x hx
    simp only [sexChars, List.mem_cons] at hx
    rcases hx with rfl | rfl | rfl | rfl | hx
    · exact ⟨_, rfl⟩
    · exact ⟨_, rfl⟩
    · exact ⟨_, rfl⟩
    · exact ⟨_, rfl⟩
    · exact ih x hx

/-- `btoa` output contains no whitespace, so `atob`'s whitespace strip is the
identity on it. -/
theorem stripWs_btoa (l : List Nat) : stripWs (btoaChars l) = btoaChars l := by
  rw [stripWs, List.filter_eq_self]
  intro c hc
  rcases mem_btoaChars l c hc with rfl | ⟨n, rfl⟩
  · decide
  · simp [b64Char_not_ws]

/-- `btoa` output length is always a multiple of 4. -/
theorem btoa_length_mod4 : ∀ l : List Nat, (btoaChars l).length % 4 = 0 := by
  refine chunk3_ind _ rfl (fun _ => by simp [btoaChars]) (fun _ _ => by simp [btoaChars]) ?_
  intro a b c t ih
  simp [btoaChars]
  omega

/-- The sextet-character prefix never reaches length 1 mod 4. -/
theorem sex_length_mod4 : ∀ l : List Nat, (sexChars l).length % 4 ≠ 1 := by
  refine chunk3_ind _ (by decide) (fun a => by simp [sexChars]) (fun a b => by simp [sexChars]) ?_
  intro a b c t ih
  simp [sexChars]
  omega

/-- Splitting the encoder output into sextet characters plus padding. -/
theorem padChars_cons3 (a b c : Nat) (t : List Nat) :
    padChars (a :: b :: c :: t) = padChars t := by
  have h : (a :: b :: c :: t).length % 3 = t.length % 3 := by simp; omega
  simp only [padChars]
  rw [h]

/-- The encoder output is the sextet characters followed by the padding. -/
theorem btoa_eq_sex_pad : ∀ l : List Nat, btoaChars l = sexChars l ++ padChars l := by
  refine chunk3_ind _ rfl (fun _ => rfl) (fun _ _ => rfl) ?_
  intro a b c t ih
  simp [btoaChars, sexChars, padChars_cons3, ih]

/-- Padding strip is the identity on a list with no trailing `=`. -/
theorem strip_no_pad (x : List Char) (hx : ∀ c ∈ x, c ≠ '=') : stripPad x = x := by
  induction x using List.reverseRecOn with
  | nil => rfl
  | append_singleton y c _ =>
    have hc : c ≠ '=' := hx c (by simp)
    have h : (y ++ [c]).reverse = c :: y.reverse := by simp
    unfold stripPad
    rw [h]
    simp [hc]

/-- Padding strip removes a trailing `==`. -/
theorem stripPad_append_two (x : List Char) : stripPad (x ++ ['=', '=']) = x := by
  have h : (x ++ ['=', '=']).reverse = '=' :: '=' :: x.reverse := by simp
  unfold stripPad
  rw [h]
  simp

/-- Padding strip removes a single trailing `=` after non-`=` characters. -/
theorem stripPad_append_one (x : List Char) (hx : ∀ c ∈ x, c ≠ '=') :
    stripPad (x ++ ['=']) = x := by
  induction x using List.reverseRecOn with
  | nil => decide
  | append_singleton y c _ =>
    have hc : c ≠ '=' := hx c (by simp)
    have h : ((y ++ [c]) ++ ['=']).reverse = '=' :: c :: y.reverse := by simp
    unfold stripPad
    rw [h]
    simp [hc]

/-- Stripping the padding from the encoder output leaves the sextet prefix. -/
theorem strip_sex_pad (l : List Nat) : stripPad (sexChars l ++ padChars l) = sexChars l := by
  have hnp : ∀ c ∈ sexChars l, c ≠ '=' := fun c hc =>
    (mem_sexChars l c hc).elim fun n hn => hn ▸ b64Char_ne_pad n
  rw [padChars]
  split
  · exact stripPad_append_two _
  · split
    · exact stripPad_append_one _ hnp
    · rw [List.append_nil]
      exact strip_no_pad _ hnp

/-- `atob`'s padding strip applied to `btoa` output yields the sextet prefix. -/
theorem stripPad_btoa (l : List Nat) : stripPad (btoaChars l) = sexChars l := by
  rw [btoa_eq_sex_pad]
  exact strip_sex_pad l

/-- Decoding the sextet characters of a byte list recovers the bytes. -/
theorem sex_decode : ∀ l : List Nat, (∀ b ∈ l, b < 256) →
    (mapVals (sexChars l)).map decodeSextets = some l := by
  refine chunk3_ind _ (fun _ => rfl) ?_ ?_ ?_
  · intro a h
    have ha : a < 256 := h a (by simp)
    have e0 := b64Char_val_bounded (a / 4) (by omega)
    have e1 := b64Char_val_bounded (a % 4 * 16) (by omega)
    simp [sexChars, mapVals, e0, e1, decodeSextets]
    omega
  · intro a b h
    have ha : a < 256 := h a (by simp)
    have hb : b < 256 := h b (by simp)
    have e0 := b64Char_val_bounded (a / 4) (by omega)
    have e1 := b64Char_val_bounded (a % 4 * 16 + b / 16) (by omega)
    have e2 := b64Char_val_bounded (b % 16 * 4) (by omega)
    simp [sexChars, mapVals, e0, e1, e2, decodeSextets]
    omega
  · intro a b c t ih h
    have ha : a < 256 := h a (by simp)
    have hb : b < 256 := h b (by simp)
    have hc : c < 256 := h c (by simp)
    have ht : ∀ x ∈ t, x < 256 := fun x hx => h x (by simp [hx])
    have e0 := b64Char_val_bounded (a / 4) (by omega)
    have e1 := b64Char_val_bounded (a % 4 * 16 + b / 16) (by omega)
    have e2 := b64Char_val_bounded (b % 16 * 4 + c / 64) (by omega)
    have e3 := b64Char_val_bounded (c % 64) (by omega)
    specialize ih ht
    rcases hm : mapVals (sexChars t) with _ | vs
    · rw [hm] at ih; simp at ih
    · rw [hm] at ih
      have hvs : decodeSextets vs = t := by simpa using ih
      simp [sexChars, mapVals, e0, e1, e2, e3, hm, decodeSextets, hvs]
      omega

/-- Decoding `btoa` output with forgiving-base64 recovers the byte list. -/
theorem atob_btoa (l : List Nat) (h : ∀ b ∈ l, b < 256) :
    atobModel (btoaChars l) = some l := by
  show atobCore (if (stripWs (btoaChars l)).length % 4 = 0
    then stripPad (stripWs (btoaChars l)) else stripWs (btoaChars l)) = some l
  rw [stripWs_btoa, if_pos (btoa_length_mod4 l), stripPad_btoa]
  rw [atobCore, if_neg (sex_length_mod4 l)]
  exact sex_decode l h

/-- Claim C10, confirmed: for every byte array (entries below 256, as
`Uint8Array` guarantees), decoding the string produced by
`uint8ArrayToBase64` with `base64ToUint8Array` returns the original bytes —
the two conversion helpers are a round-trip identity, so engine output bytes
survive the response encoding unchanged. -/
theorem C10_base64_roundtrip (bytes : List Nat) (h : ∀ b ∈ bytes, b < 256) :
    base64ToUint8Array (uint8ArrayToBase64 bytes) = some bytes :=
  atob_btoa bytes h

/-- Witness for `C10_base64_roundtrip` on the bytes `[77, 97, 110, 255, 0]`. -/
theorem C10_base64_roundtrip_witness :
    base64ToUint8Array (uint8ArrayToBase64 [77, 97, 110, 255, 0]) =
      some [77, 97, 110, 255, 0] :=
  C10_base64_roundtrip [77, 97, 110, 255, 0] (by decide)

end AudioMerge
